import Mathlib

/-!
Verification of the layered-configuration core of the CLI: a shallow embedding of
`src/config_map.rs` (the `ConfigMap` document layer) and `src/config_from_file.rs`
(the `FileConfig` type), together with the fragment of the `toml_edit` library
API these files use (`Table::get` / `insert` / `remove` / `iter` / `is_empty` /
`get_values`, `Item::as_table`).

A TOML document is modelled as its root table: an ordered association list of
key/item pairs.  The items occurring in this development are string-valued
leaves and (standard, non-dotted) sub-tables — exactly the shapes the config
code itself creates (`toml_edit::value(&str)` and `toml_edit::Item::Table`) and
the shapes the persisted config/hosts files use per the spec (root-level string
settings, a `hosts` table of per-host sub-tables of string settings).

Errors produced with `anyhow!` in the source are modelled by the inductive
`CfgError`, one constructor per distinct error message.
-/

namespace BrainsnailCli

/-- A TOML item as used by the config code: a string-valued leaf
(`toml_edit::Value::String`) or a standard sub-table (`toml_edit::Item::Table`,
not dotted, not inline). -/
inductive Item where
  | str : String → Item
  | table : List (String × Item) → Item

/-- A TOML table: an ordered association list of key/item pairs
(`toml_edit::Table`).  A `toml_edit::Document` dereferences to its root table,
so documents are modelled by the same type. -/
abbrev TomlTable := List (String × Item)

/-- A TOML document, identified with its root table. -/
abbrev Doc := TomlTable

/-- `true` iff the item is a table (`Item::as_table(..).is_some()`). -/
def Item.isTable : Item → Bool
  | .str _ => false
  | .table _ => true

/-- Models `toml_edit::Table::get`: first entry with the given key, if any. -/
def tableGet (t : TomlTable) (key : String) : Option Item :=
  match t with
  | [] => none
  | (k, v) :: rest => if k = key then some v else tableGet rest key

/-- Models `toml_edit::Table::insert`: if the key is present its value is
replaced in place (position preserved); otherwise the pair is appended. -/
def tableInsert (t : TomlTable) (key : String) (v : Item) : TomlTable :=
  match t with
  | [] => [(key, v)]
  | (k, v') :: rest =>
      if k = key then (key, v) :: rest else (k, v') :: tableInsert rest key v

/-- Models `toml_edit::Table::remove` (shift-remove): drops the entry with the
given key, preserving the order of the remaining entries; no-op if absent. -/
def tableRemove (t : TomlTable) (key : String) : TomlTable :=
  match t with
  | [] => []
  | (k, v) :: rest => if k = key then rest else (k, v) :: tableRemove rest key

/-- Models `toml_edit::Table::get_values`, which collects the `(key path,
value)` pairs of the `Value` items of a table, recursing only into *dotted*
tables and dotted inline tables; standard sub-tables (the only table form in
this model) contribute nothing.  Paths here are therefore single keys. -/
def getValues (t : TomlTable) : List (List String × Item) :=
  match t with
  | [] => []
  | (k, v) :: rest =>
      match v with
      | .str s => ([k], Item.str s) :: getValues rest
      | .table _ => getValues rest

/-- The error values the config code builds with `anyhow!`, one constructor per
distinct message. -/
inductive CfgError where
  /-- `"Key '{}' not found"` (from `ConfigMap`). -/
  | keyNotFound : String → CfgError
  /-- `"Expected string value for key '{}', found '{:?}'"`. -/
  | typeMismatch : String → CfgError
  /-- `"{} is not an array of tables"` (hosts/aliases shape check). -/
  | notTables : String → CfgError
  /-- `"host {} not found"`. -/
  | hostNotFound : String → CfgError
  /-- `"hosts entry is not a table"` (missing first path component). -/
  | hostsEntryNotTable : CfgError
  /-- `"No hosts found"`. -/
  | noHostsFound : CfgError
  /-- `"No host has been set as default"`. -/
  | noDefaultHost : CfgError
  deriving DecidableEq, Repr

namespace ConfigMap

/-- `ConfigMap::is_empty` (`self.root.is_empty()`). -/
def is_empty (root : Doc) : Bool := root.isEmpty

/-- `ConfigMap::get_string_value`: `Ok` for a string leaf, `TypeMismatch` for a
present non-string item, `KeyNotFound` when absent. -/
def get_string_value (root : Doc) (key : String) : Except CfgError String :=
  match tableGet root key with
  | some (.str s) => .ok s
  | some _ => .error (.typeMismatch key)
  | none => .error (.keyNotFound key)

/-- `ConfigMap::set_string_value`: inserts or overwrites a string leaf; always
succeeds, so it is modelled as returning the updated root. -/
def set_string_value (root : Doc) (key value : String) : Doc :=
  tableInsert root key (.str value)

/-- `ConfigMap::find_entry`: a clone of the item at `key`, or `KeyNotFound`. -/
def find_entry (root : Doc) (key : String) : Except CfgError Item :=
  match tableGet root key with
  | some v => .ok v
  | none => .error (.keyNotFound key)

/-- `ConfigMap::remove_entry`: removes `key` if present; always returns `Ok`,
so it is modelled as returning the updated root. -/
def remove_entry (root : Doc) (key : String) : Doc :=
  tableRemove root key

end ConfigMap

/-- The `HostConfig` struct: a `ConfigMap` root plus the host name. -/
structure HostConfig where
  map : Doc
  host : String

/-- Modelled from the spec: the filesystem path provider (`config_file.rs`,
not under `src/`) yields the config-file location; the value is opaque to all
properties proved here. -/
def config_file : String := "config.toml"

/-- Modelled from the spec: the filesystem path provider (`config_file.rs`,
not under `src/`) yields the hosts-file location; the value is opaque to all
properties proved here. -/
def hosts_file : String := "hosts.toml"

namespace FileConfig

/-- `FileConfig::get_hosts_table`: the `"hosts"` entry as a table; an absent
key (whose `find_entry` error message contains `"not found"`) yields a fresh
empty table; a present non-table entry is `"hosts is not an array of tables"`.
`find_entry` produces no other error, so no wrapping branch is reachable. -/
def get_hosts_table (c : Doc) : Except CfgError TomlTable :=
  match ConfigMap.find_entry c "hosts" with
  | .ok (.table t) => .ok t
  | .ok _ => .error (.notTables "hosts")
  | .error (.keyNotFound _) => .ok []
  | .error e => .error e

/-- `FileConfig::get_host_entries`: one `HostConfig` per element of
`hosts_table.get_values()`, with `map` a clone of the *whole* hosts table and
`host` the first component of the value's key path. -/
def get_host_entries (c : Doc) : Except CfgError (List HostConfig) := do
  let hosts_table ← get_hosts_table c
  (getValues hosts_table).mapM fun kv =>
    match kv.1.head? with
    | some k => Except.ok { map := hosts_table, host := k }
    | none => Except.error CfgError.hostsEntryNotTable

/-- `FileConfig::get_host_config`: first host entry whose `host` field equals
`hostname`, else `"host {} not found"`. -/
def get_host_config (c : Doc) (hostname : String) : Except CfgError HostConfig := do
  let host_configs ← get_host_entries c
  match host_configs.find? (fun hc => hc.host = hostname) with
  | some hc => Except.ok hc
  | none => Except.error (.hostNotFound hostname)

/-- `FileConfig::make_host_config`: builds a `HostConfig` with a fresh empty
root and inserts a clone of it into a *local* clone of the hosts table (which
is then dropped); the returned entry is the empty one. -/
def make_host_config (c : Doc) (hostname : String) : Except CfgError HostConfig := do
  let host_config : HostConfig := { map := [], host := hostname }
  let hosts_table ← get_hosts_table c
  -- The insertion mutates only the local clone `hosts_table`, then drops it.
  let _ := tableInsert hosts_table hostname (.table host_config.map)
  Except.ok host_config

/-- `FileConfig::get_with_source` (the `Config` trait impl): root-level lookup
with the config-file path for an empty hostname, otherwise a lookup in the
resolved host entry's map with the hosts-file path. -/
def get_with_source (c : Doc) (hostname key : String) :
    Except CfgError (String × String) :=
  if hostname = "" then do
    let value ← ConfigMap.get_string_value c key
    Except.ok (value, config_file)
  else do
    let host_config ← get_host_config c hostname
    let value ← ConfigMap.get_string_value host_config.map key
    Except.ok (value, hosts_file)

/-- `FileConfig::get`: `get_with_source` without the source. -/
def get (c : Doc) (hostname key : String) : Except CfgError String :=
  (get_with_source c hostname key).map Prod.fst

/-- `FileConfig::set`: empty hostname writes the root document; otherwise the
host entry is resolved (or freshly created on any lookup error), the key is
written into that entry's map, the entry is re-inserted into the hosts table,
and the hosts table is re-inserted into the root. -/
def set (c : Doc) (hostname key value : String) : Except CfgError Doc :=
  if hostname = "" then
    Except.ok (ConfigMap.set_string_value c key value)
  else do
    let host_config ←
      match get_host_config c hostname with
      | .ok host_config => Except.ok host_config
      | .error _ =>
          -- Likely the host doesn't exist, so create it.
          make_host_config c hostname
    let hcmap := ConfigMap.set_string_value host_config.map key value
    let hosts_table ← get_hosts_table c
    let hosts_table := tableInsert hosts_table hostname (.table hcmap)
    Except.ok (tableInsert c "hosts" (.table hosts_table))

/-- `FileConfig::unset_host`: no-op for an empty hostname; otherwise removes
the entry from the hosts table and re-inserts the table into the root. -/
def unset_host (c : Doc) (hostname : String) : Except CfgError Doc :=
  if hostname = "" then
    Except.ok c
  else do
    let hosts_table ← get_hosts_table c
    let hosts_table := ConfigMap.remove_entry hosts_table hostname
    Except.ok (tableInsert c "hosts" (.table hosts_table))

/-- `FileConfig::hosts`: the keys of the hosts table, in table order. -/
def hosts (c : Doc) : Except CfgError (List String) := do
  let hosts_table ← get_hosts_table c
  Except.ok (hosts_table.map Prod.fst)

/-- The scan inside `default_host_with_source`: first host entry whose map has
`default == "true"`; the `?` on `get_string_value` propagates its errors. -/
def firstDefault (src : String) :
    List HostConfig → Except CfgError (String × String)
  | [] => .error .noDefaultHost
  | hc :: rest => do
      let v ← ConfigMap.get_string_value hc.map "default"
      if v = "true" then Except.ok (hc.host, src) else firstDefault src rest

/-- `FileConfig::default_host_with_source`: error on zero hosts; a single host
is the default unconditionally; otherwise scan the host entries for
`default == "true"`, failing with `NoDefaultHost` when the scan is exhausted. -/
def default_host_with_source (c : Doc) : Except CfgError (String × String) := do
  let hs ← hosts c
  match hs with
  | [] => Except.error CfgError.noHostsFound
  | [h] => Except.ok (h, hosts_file)
  | _ => do
      let host_configs ← get_host_entries c
      firstDefault hosts_file host_configs

/-- `FileConfig::default_host`: `default_host_with_source` without the source. -/
def default_host (c : Doc) : Except CfgError String :=
  (default_host_with_source c).map Prod.fst

end FileConfig

end BrainsnailCli

namespace BrainsnailCli

/-- `true` iff the item is a host entry carrying the reserved `default` flag
set to the string `"true"` (the spec's "flagged default" condition on a Host
Entry, i.e. a sub-table with `default = "true"`). -/
def hostHasDefaultFlag : Item → Bool
  | .table sub =>
      match tableGet sub "default" with
      | some (.str s) => s == "true"
      | _ => false
  | .str _ => false

/-- Modelled from the spec: the config-file loader (in `config_file.rs` /
`config.rs`, not under `src/`) produces a Document that "retains original
layout (comment text, key ordering, whitespace)" of the loaded text.  A loaded
document is modelled as the ordered list of its top-level entries, each paired
with the exact slice of source text it occupies (attached comments and
whitespace included), so that `Document::to_string` is the concatenation of
the slices. -/
structure LoadedDoc where
  sections : List (String × String)

/-- Removal of a top-level entry from the section list of a loaded document
(the `remove_entry` of `ConfigMap`, acting on a `LoadedDoc`): drops the
section with the given key, keeping the other slices verbatim. -/
def removeSection (ss : List (String × String)) (key : String) :
    List (String × String) :=
  match ss with
  | [] => []
  | (k, raw) :: rest => if k = key then rest else (k, raw) :: removeSection rest key

/-- `Document::to_string` on a loaded document: the concatenation of the
original text slices. -/
def LoadedDoc.toText (d : LoadedDoc) : String :=
  String.join (d.sections.map Prod.snd)

/-- Drops leading and trailing whitespace characters from a character list. -/
def trimChars (cs : List Char) : List Char :=
  ((cs.dropWhile Char.isWhitespace).reverse.dropWhile Char.isWhitespace).reverse

/-- Models `str::trim` as called by `config_to_string` / `hosts_to_string`:
removes leading and trailing whitespace from the string. -/
def strTrim (s : String) : String :=
  String.mk (trimChars s.data)

/-- `FileConfig::config_to_string` over a loaded document: clone the map,
`remove_entry("hosts")`, serialize the rest, and `trim` leading and trailing
whitespace. -/
def LoadedDoc.config_to_string (d : LoadedDoc) : String :=
  strTrim (LoadedDoc.toText ⟨removeSection d.sections "hosts"⟩)

/-- Lookup of a top-level entry's text slice in a loaded document (the
`find_entry` / `Table::get` of the loaded root, as `get_hosts_table` uses it). -/
def findSection (ss : List (String × String)) (key : String) : Option String :=
  match ss with
  | [] => none
  | (k, raw) :: rest => if k = key then some raw else findSection rest key

/-- Modelled from the spec: the loader (not under `src/`) parses the config
file into the root document's entries — the config file "excludes the `hosts`
key", each entry keeping its text slice — parses the hosts file into the hosts
table (retaining *its* layout), and stores that table in the root under
`"hosts"`; the hosts entry therefore carries the hosts-file text as its slice. -/
def loadState (cfg : List (String × String)) (hostsText : String) : LoadedDoc :=
  ⟨cfg ++ [("hosts", hostsText)]⟩

/-- `FileConfig::hosts_to_string` over a loaded document: extract the hosts
table (`get_hosts_table`; an absent key is the empty table, which serializes
to the empty string), make it the root of a fresh `toml_edit::Document`, and
`trim` its serialization — which, by the spec's layout retention, is exactly
the text slice the hosts table was loaded from. -/
def LoadedDoc.hosts_to_string (d : LoadedDoc) : String :=
  strTrim (match findSection d.sections "hosts" with
           | some raw => raw
           | none => "")

/-- `FileConfig::write` over a loaded document: serializes `config_to_string`
to the config-file path and `hosts_to_string` to the hosts-file path; the
filesystem call (`write_config_file`, not under `src/`) is modelled by
returning the two `(path, content)` pairs it is given. -/
def LoadedDoc.write (d : LoadedDoc) : List (String × String) :=
  [(config_file, d.config_to_string), (hosts_file, d.hosts_to_string)]

/-! ### Helper lemmas about the `toml_edit` table operations -/

theorem except_bind_ok {ε α β : Type} (a : α) (f : α → Except ε β) :
    (Except.ok a : Except ε α) >>= f = f a := rfl

theorem except_bind_error {ε α β : Type} (e : ε) (f : α → Except ε β) :
    (Except.error e : Except ε α) >>= f = Except.error e := rfl

theorem except_map_ok {ε α β : Type} (f : α → β) (a : α) :
    Except.map f (Except.ok a : Except ε α) = Except.ok (f a) := rfl

theorem except_map_error {ε α β : Type} (f : α → β) (e : ε) :
    Except.map f (Except.error e : Except ε α) = Except.error e := rfl

theorem tableGet_tableInsert_self (t : TomlTable) (key : String) (v : Item) :
    tableGet (tableInsert t key v) key = some v := by
  induction t with
  | nil => simp [tableInsert, tableGet]
  | cons kv rest ih =>
      obtain ⟨k, v'⟩ := kv
      by_cases h : k = key
      · simp [tableInsert, h, tableGet]
      · simp [tableInsert, h, tableGet, ih]

theorem tableGet_tableInsert_ne (t : TomlTable) (key key' : String) (v : Item)
    (hne : key' ≠ key) :
    tableGet (tableInsert t key v) key' = tableGet t key' := by
  have hne' : key ≠ key' := fun h => hne h.symm
  induction t with
  | nil => simp [tableInsert, tableGet, hne']
  | cons kv rest ih =>
      obtain ⟨k, v'⟩ := kv
      by_cases h : k = key
      · subst h
        simp [tableInsert, tableGet, hne']
      · simp [tableInsert, h, tableGet, ih]

theorem tableRemove_of_get_none (t : TomlTable) (key : String)
    (h : tableGet t key = none) : tableRemove t key = t := by
  induction t with
  | nil => rfl
  | cons kv rest ih =>
      obtain ⟨k, v⟩ := kv
      by_cases hk : k = key
      · simp [tableGet, hk] at h
      · simp [tableGet, hk] at h
        simp [tableRemove, hk, ih h]

theorem tableInsert_ne_nil (t : TomlTable) (key : String) (v : Item) :
    tableInsert t key v ≠ [] := by
  cases t with
  | nil => simp [tableInsert]
  | cons kv rest =>
      simp only [tableInsert]
      split <;> simp

theorem getValues_eq_nil_of_all_isTable (t : TomlTable)
    (h : t.all (fun kv => kv.2.isTable) = true) : getValues t = [] := by
  induction t with
  | nil => rfl
  | cons kv rest ih =>
      obtain ⟨k, v⟩ := kv
      simp only [List.all_cons, Bool.and_eq_true] at h
      cases v with
      | str s => simp [Item.isTable] at h
      | table sub => simpa [getValues] using ih h.2

theorem get_hosts_table_tableInsert_ne (c : Doc) (key : String) (v : Item)
    (hk : key ≠ "hosts") :
    FileConfig.get_hosts_table (tableInsert c key v) = FileConfig.get_hosts_table c := by
  unfold FileConfig.get_hosts_table ConfigMap.find_entry
  rw [tableGet_tableInsert_ne c key "hosts" v (fun h => hk h.symm)]

theorem removeSection_of_all_ne (ss : List (String × String)) (key : String)
    (h : ss.all (fun s => s.1 != key) = true) : removeSection ss key = ss := by
  induction ss with
  | nil => rfl
  | cons s rest ih =>
      simp only [List.all_cons, Bool.and_eq_true, bne_iff_ne, ne_eq] at h
      simp [removeSection, h.1, ih h.2]

theorem removeSection_append_hosts (cfg : List (String × String)) (h : String)
    (hno : cfg.all (fun s => s.1 != "hosts") = true) :
    removeSection (cfg ++ [("hosts", h)]) "hosts" = cfg := by
  induction cfg with
  | nil => simp [removeSection]
  | cons s rest ih =>
      simp only [List.all_cons, Bool.and_eq_true, bne_iff_ne, ne_eq] at hno
      simp [removeSection, hno.1, ih hno.2]

theorem findSection_append_hosts (cfg : List (String × String)) (h : String)
    (hno : cfg.all (fun s => s.1 != "hosts") = true) :
    findSection (cfg ++ [("hosts", h)]) "hosts" = some h := by
  induction cfg with
  | nil => simp [findSection]
  | cons s rest ih =>
      simp only [List.all_cons, Bool.and_eq_true, bne_iff_ne, ne_eq] at hno
      simp [findSection, hno.1, ih hno.2]

end BrainsnailCli

namespace BrainsnailCli

/-! ### The claims -/

/-- C1: starting from an empty config, `set("newhost", "token", "abc")`
succeeds and produces a document whose hosts table holds the new entry, and
`hosts()` afterwards includes `"newhost"`; but the subsequent
`get("newhost", "token")` does *not* return `"abc"` — it fails with
`host newhost not found`, because `get_host_entries` builds its entry list
from `hosts_table.get_values()`, which skips standard sub-tables, so the
freshly written host is never found again.  The theorem evaluates the code on
the claim's exact scenario. -/
theorem claim_C1 :
    FileConfig.set ([] : Doc) "newhost" "token" "abc" =
      .ok [("hosts", Item.table [("newhost", Item.table [("token", Item.str "abc")])])] ∧
    FileConfig.get
      [("hosts", Item.table [("newhost", Item.table [("token", Item.str "abc")])])]
      "newhost" "token" = .error (.hostNotFound "newhost") ∧
    FileConfig.hosts
      [("hosts", Item.table [("newhost", Item.table [("token", Item.str "abc")])])] =
      .ok ["newhost"] :=
  ⟨rfl, rfl, rfl⟩

/-- C2: on a config whose host `"h1"` already exists with setting
`a = "1"`, `set("h1", "b", "2")` does *not* write into the existing entry:
`get_host_config` fails (`get_values` never yields the sub-table entries), so
`set` takes the `make_host_config` branch and re-inserts a *fresh* entry
holding only `b = "2"` — the old key `a` is dropped from the document
entirely — and afterwards `get("h1", ·)` fails with `host h1 not found` for
both the old and the new key.  The theorem evaluates the code on that input. -/
theorem claim_C2 :
    FileConfig.set
      [("hosts", Item.table [("h1", Item.table [("a", Item.str "1")])])]
      "h1" "b" "2" =
      .ok [("hosts", Item.table [("h1", Item.table [("b", Item.str "2")])])] ∧
    FileConfig.get
      [("hosts", Item.table [("h1", Item.table [("b", Item.str "2")])])] "h1" "a" =
      .error (.hostNotFound "h1") ∧
    FileConfig.get
      [("hosts", Item.table [("h1", Item.table [("b", Item.str "2")])])] "h1" "b" =
      .error (.hostNotFound "h1") :=
  ⟨rfl, rfl, rfl⟩

/-- C3: on a two-host config in which Host Entry `"h1"` carries
`default = "true"` (so `hostHasDefaultFlag` holds of it), `default_host()`
does *not* return `"h1"`: the scan in `default_host_with_source` iterates
`get_host_entries()`, which is empty because `get_values` skips the standard
per-host sub-tables, so the code falls through to the
`No host has been set as default` error.  The theorem evaluates the code on
that input. -/
theorem claim_C3 :
    hostHasDefaultFlag (Item.table [("default", Item.str "true")]) = true ∧
    FileConfig.default_host
      [("hosts", Item.table [("h1", Item.table [("default", Item.str "true")]),
                             ("h2", Item.table [])])] =
      .error .noDefaultHost :=
  ⟨rfl, rfl⟩

/-- C6: a config whose hosts table has exactly one entry (any shape, no
`default` flag needed) has that entry's key as its default host:
`default_host()` returns it unconditionally via the single-host branch. -/
theorem claim_C6 (c : Doc) (t : TomlTable) (hname : String)
    (ht : FileConfig.get_hosts_table c = .ok t)
    (hone : t.map Prod.fst = [hname]) :
    FileConfig.default_host c = .ok hname := by
  unfold FileConfig.default_host FileConfig.default_host_with_source FileConfig.hosts
  rw [ht]
  simp [except_bind_ok, hone, except_map_ok]

/-- C6 witness: the single-host config `hosts = { h1 = {} }` (no `default`
flag) has default host `"h1"`. -/
theorem claim_C6_witness :
    FileConfig.default_host [("hosts", Item.table [("h1", Item.table [])])] = .ok "h1" :=
  claim_C6 _ [("h1", Item.table [])] "h1" rfl rfl

/-- C7: `get_string_value` fails with `KeyNotFound` exactly when the key is
absent from the root table, and with `TypeMismatch` (not `KeyNotFound`, and
totally — the model is a total function, mirroring the panic-free `match` in
the source) when the key holds a nested table rather than a string leaf. -/
theorem claim_C7 (root : Doc) (key : String) :
    (tableGet root key = none →
      ConfigMap.get_string_value root key = .error (.keyNotFound key)) ∧
    (∀ t, tableGet root key = some (Item.table t) →
      ConfigMap.get_string_value root key = .error (.typeMismatch key)) := by
  constructor
  · intro h
    unfold ConfigMap.get_string_value
    rw [h]
  · intro t h
    unfold ConfigMap.get_string_value
    rw [h]

/-- C7 witness: on the document `k = { }` (a nested table under `k`), looking
up `k` is a `TypeMismatch` and looking up the absent `a` is a `KeyNotFound`. -/
theorem claim_C7_witness :
    ConfigMap.get_string_value ([("k", Item.table [])] : Doc) "k" =
      .error (.typeMismatch "k") ∧
    ConfigMap.get_string_value ([("k", Item.table [])] : Doc) "a" =
      .error (.keyNotFound "a") :=
  ⟨(claim_C7 [("k", Item.table [])] "k").2 [] rfl,
   (claim_C7 [("k", Item.table [])] "a").1 rfl⟩

end BrainsnailCli

namespace BrainsnailCli

/-- C4: on any config whose hosts table has exactly the two Host Entries
`"h1"` and `"h2"` (both sub-tables), neither flagged `default = "true"`,
`default_host()` fails with precisely the `No host has been set as default`
error: with every entry a standard sub-table, `get_values()` is empty, so the
scan is exhausted immediately and no other error can surface. -/
theorem claim_C4 (c : Doc) (t : TomlTable)
    (ht : FileConfig.get_hosts_table c = .ok t)
    (hkeys : t.map Prod.fst = ["h1", "h2"])
    (htables : t.all (fun kv => kv.2.isTable) = true)
    (_hnodef : t.all (fun kv => !hostHasDefaultFlag kv.2) = true) :
    FileConfig.default_host c = .error .noDefaultHost := by
  have hgv : getValues t = [] := getValues_eq_nil_of_all_isTable t htables
  unfold FileConfig.default_host FileConfig.default_host_with_source FileConfig.hosts
    FileConfig.get_host_entries
  rw [ht]
  simp [except_bind_ok, hkeys, hgv, FileConfig.firstDefault, except_map_error,
    List.mapM, List.mapM.loop]

/-- C4 witness: the two-host config `hosts = { h1 = {}, h2 = {} }` with no
default flags fails with `NoDefaultHost`. -/
theorem claim_C4_witness :
    FileConfig.default_host
      [("hosts", Item.table [("h1", Item.table []), ("h2", Item.table [])])] =
      .error .noDefaultHost :=
  claim_C4 _ [("h1", Item.table []), ("h2", Item.table [])] rfl rfl rfl rfl

/-- C8: `unset_host` on a hostname absent from the hosts table (of any config
whose `"hosts"` key is absent or a table) succeeds, and `hosts()` is the same
sequence before and after; likewise `remove_entry` on an absent key returns
the document unchanged (and always succeeds, being modelled as total). -/
theorem claim_C8 (c : Doc) (t : TomlTable) (hname : String)
    (ht : FileConfig.get_hosts_table c = .ok t)
    (habs : tableGet t hname = none) :
    (∃ c2, FileConfig.unset_host c hname = .ok c2 ∧
      FileConfig.hosts c2 = FileConfig.hosts c) ∧
    (∀ root key, tableGet root key = none → ConfigMap.remove_entry root key = root) := by
  constructor
  · by_cases hh : hname = ""
    · exact ⟨c, by simp [FileConfig.unset_host, hh], rfl⟩
    · refine ⟨tableInsert c "hosts" (Item.table t), ?_, ?_⟩
      · unfold FileConfig.unset_host
        rw [if_neg hh, ht]
        simp [except_bind_ok, ConfigMap.remove_entry,
          tableRemove_of_get_none t hname habs]
      · have h2 : FileConfig.get_hosts_table (tableInsert c "hosts" (Item.table t)) =
            .ok t := by
          unfold FileConfig.get_hosts_table ConfigMap.find_entry
          rw [tableGet_tableInsert_self]
        unfold FileConfig.hosts
        rw [h2, ht]
  · intro root key h
    exact tableRemove_of_get_none root key h

/-- C8 witness: `unset_host("ghost")` on `hosts = { h1 = {} }` succeeds and
leaves `hosts()` unchanged. -/
theorem claim_C8_witness :
    (∃ c2, FileConfig.unset_host
        [("hosts", Item.table [("h1", Item.table [])])] "ghost" = .ok c2 ∧
      FileConfig.hosts c2 =
        FileConfig.hosts [("hosts", Item.table [("h1", Item.table [])])]) ∧
    (∀ root key, tableGet root key = none → ConfigMap.remove_entry root key = root) :=
  claim_C8 _ [("h1", Item.table [])] "ghost" rfl rfl

/-- C9 counterexample to the claim as stated: empty-hostname `set` with the
key `"hosts"` *does* touch the Host Entries — it overwrites the whole hosts
table with a string leaf, after which host-level `get` fails with
`hosts is not an array of tables` instead of the previous `host h1 not found`,
an observably different result. -/
theorem claim_C9_counterexample :
    FileConfig.set
      [("hosts", Item.table [("h1", Item.table [("token", Item.str "abc")])])]
      "" "hosts" "v" = .ok [("hosts", Item.str "v")] ∧
    FileConfig.get [("hosts", Item.str "v")] "h1" "token" =
      .error (.notTables "hosts") ∧
    FileConfig.get
      [("hosts", Item.table [("h1", Item.table [("token", Item.str "abc")])])]
      "h1" "token" = .error (.hostNotFound "h1") ∧
    CfgError.notTables "hosts" ≠ CfgError.hostNotFound "h1" :=
  ⟨rfl, rfl, rfl, by decide⟩

/-- C9 (amended): `set("", key, value)` always succeeds, writes `value` as a
root-level entry readable back by `get("", key)`; and *provided
`key ≠ "hosts"`*, it leaves every non-empty-hostname `get` unchanged (the
claim as stated fails at `key = "hosts"`, which overwrites the hosts table). -/
theorem claim_C9 (c : Doc) (key value : String) :
    ∃ c2, FileConfig.set c "" key value = .ok c2 ∧
      FileConfig.get c2 "" key = .ok value ∧
      (key ≠ "hosts" → ∀ h k, h ≠ "" →
        FileConfig.get c2 h k = FileConfig.get c h k) := by
  refine ⟨ConfigMap.set_string_value c key value, rfl, ?_, ?_⟩
  · unfold FileConfig.get FileConfig.get_with_source ConfigMap.get_string_value
      ConfigMap.set_string_value
    rw [tableGet_tableInsert_self]
    rfl
  · intro hk h k hh
    have hins : FileConfig.get_hosts_table (ConfigMap.set_string_value c key value) =
        FileConfig.get_hosts_table c :=
      get_hosts_table_tableInsert_ne c key (Item.str value) hk
    unfold FileConfig.get FileConfig.get_with_source FileConfig.get_host_config
      FileConfig.get_host_entries
    rw [if_neg hh, if_neg hh, hins]

/-- C9 witness: setting the root key `"color"` on the empty config. -/
theorem claim_C9_witness :
    ∃ c2, FileConfig.set ([] : Doc) "" "color" "red" = .ok c2 ∧
      FileConfig.get c2 "" "color" = .ok "red" ∧
      ("color" ≠ "hosts" → ∀ h k, h ≠ "" →
        FileConfig.get c2 h k = FileConfig.get ([] : Doc) h k) :=
  claim_C9 [] "color" "red"

/-- C10: `unset_host` with a non-empty hostname on a config whose root has no
`"hosts"` key re-inserts the (empty) hosts table into the root as a side
effect: afterwards the root holds `hosts = {}`, `is_empty()` is `false`, yet
`hosts()` is still the empty sequence. -/
theorem claim_C10 (c : Doc) (hname : String) (hne : hname ≠ "")
    (habs : tableGet c "hosts" = none) :
    ∃ c2, FileConfig.unset_host c hname = .ok c2 ∧
      tableGet c2 "hosts" = some (Item.table []) ∧
      ConfigMap.is_empty c2 = false ∧
      FileConfig.hosts c2 = .ok [] := by
  have hght : FileConfig.get_hosts_table c = .ok [] := by
    unfold FileConfig.get_hosts_table ConfigMap.find_entry
    rw [habs]
  refine ⟨tableInsert c "hosts" (Item.table []), ?_, ?_, ?_, ?_⟩
  · unfold FileConfig.unset_host
    rw [if_neg hne, hght]
    simp [except_bind_ok, ConfigMap.remove_entry, tableRemove]
  · exact tableGet_tableInsert_self c "hosts" (Item.table [])
  · unfold ConfigMap.is_empty
    have hnn := tableInsert_ne_nil c "hosts" (Item.table [])
    cases hx : tableInsert c "hosts" (Item.table []) with
    | nil => exact absurd hx hnn
    | cons a l => simp
  · have h2 : FileConfig.get_hosts_table (tableInsert c "hosts" (Item.table [])) =
        .ok [] := by
      unfold FileConfig.get_hosts_table ConfigMap.find_entry
      rw [tableGet_tableInsert_self]
    unfold FileConfig.hosts
    rw [h2]
    rfl

/-- C10 witness: `unset_host("ghost")` on the empty config materializes an
empty `hosts` table in the root. -/
theorem claim_C10_witness :
    ∃ c2, FileConfig.unset_host ([] : Doc) "ghost" = .ok c2 ∧
      tableGet c2 "hosts" = some (Item.table []) ∧
      ConfigMap.is_empty c2 = false ∧
      FileConfig.hosts c2 = .ok [] :=
  claim_C10 [] "ghost" (by decide) rfl

/-- C5 counterexample to the claim as stated: for a document loaded from a
config file and a hosts file whose texts each end in a newline,
`config_to_string()` and `hosts_to_string()` (the exact contents `write()`
persists) are *not* byte-for-byte the loaded texts — the final `trim` drops
the trailing newline on both sides. -/
theorem claim_C5_counterexample :
    LoadedDoc.config_to_string (loadState [("a", "a = \"1\"\n")] "[h1]\n") ≠
      "a = \"1\"\n" ∧
    LoadedDoc.hosts_to_string (loadState [("a", "a = \"1\"\n")] "[h1]\n") ≠
      "[h1]\n" :=
  ⟨by decide, by decide⟩

/-- C5 (amended): for any document loaded, with no edits, from a config file
with text `configText` (which, per the spec, excludes the `"hosts"` key) and a
hosts file with text `hostsText`, `config_to_string()` returns `configText`
with the hosts table removed again and trimmed of leading and trailing
whitespace (here exactly `strTrim configText`), `hosts_to_string()` returns
`strTrim hostsText`, and `write()` persists exactly these two strings to the
config-file and hosts-file paths — so comments, key ordering and all interior
formatting round-trip verbatim, and the claim's "byte-for-byte" fails only on
the boundary whitespace the `trim` removes. -/
theorem claim_C5 (cfg : List (String × String)) (configText hostsText : String)
    (hcfg : LoadedDoc.toText ⟨cfg⟩ = configText)
    (hnohosts : cfg.all (fun s => s.1 != "hosts") = true) :
    LoadedDoc.config_to_string (loadState cfg hostsText) = strTrim configText ∧
    LoadedDoc.hosts_to_string (loadState cfg hostsText) = strTrim hostsText ∧
    LoadedDoc.write (loadState cfg hostsText) =
      [(config_file, strTrim configText), (hosts_file, strTrim hostsText)] := by
  have h1 : LoadedDoc.config_to_string (loadState cfg hostsText) = strTrim configText := by
    show strTrim (LoadedDoc.toText ⟨removeSection (cfg ++ [("hosts", hostsText)]) "hosts"⟩) =
      strTrim configText
    rw [removeSection_append_hosts cfg hostsText hnohosts, hcfg]
  have h2 : LoadedDoc.hosts_to_string (loadState cfg hostsText) = strTrim hostsText := by
    show strTrim (match findSection (cfg ++ [("hosts", hostsText)]) "hosts" with
                  | some raw => raw
                  | none => "") = strTrim hostsText
    rw [findSection_append_hosts cfg hostsText hnohosts]
  refine ⟨h1, h2, ?_⟩
  show [(config_file, LoadedDoc.config_to_string (loadState cfg hostsText)),
        (hosts_file, LoadedDoc.hosts_to_string (loadState cfg hostsText))] =
    [(config_file, strTrim configText), (hosts_file, strTrim hostsText)]
  rw [h1, h2]

/-- C5 witness: a config file holding a comment and one entry and a hosts file
holding one host section, both ending in a newline, round-trip to their
trimmed texts through `config_to_string` / `hosts_to_string` / `write`. -/
theorem claim_C5_witness :
    LoadedDoc.config_to_string
        (loadState [("a", "# comment\na = \"1\"\n")] "[h1]\ntoken = \"t\"\n") =
      strTrim "# comment\na = \"1\"\n" ∧
    LoadedDoc.hosts_to_string
        (loadState [("a", "# comment\na = \"1\"\n")] "[h1]\ntoken = \"t\"\n") =
      strTrim "[h1]\ntoken = \"t\"\n" ∧
    LoadedDoc.write
        (loadState [("a", "# comment\na = \"1\"\n")] "[h1]\ntoken = \"t\"\n") =
      [(config_file, strTrim "# comment\na = \"1\"\n"),
       (hosts_file, strTrim "[h1]\ntoken = \"t\"\n")] :=
  claim_C5 [("a", "# comment\na = \"1\"\n")] "# comment\na = \"1\"\n"
    "[h1]\ntoken = \"t\"\n" rfl rfl

end BrainsnailCli
